import Mathlib

/-!
Shallow embedding of the routing and session-actor core of the `chatty`
repository: the `router` dispatcher and the `messenger` session worker.

The backend (the genai client) is modelled as an opaque collaborator, in
line with the repository's use of it: `Chats.Create` takes a seed history
and returns a chat handle or an error; `Chat.SendMessage` takes ordered
content parts and returns a response (a list of candidates) or an error;
`Chat.History(true)` returns the accumulated history.  Channel sends on a
message's `RespChan` are recorded as lists of `response` values, in the
order the code performs them; Go maps carried in messages are association
lists in iteration order.
-/

namespace Chatty

/-- genai.Part as used by this program: only the `Text` field is touched. -/
structure Part where
  Text : String
deriving Repr, DecidableEq

/-- genai.Content: a role tag and an ordered list of parts. -/
structure Content where
  Role : String := ""
  Parts : List Part
deriving Repr, DecidableEq

/-- genai.Candidate: the `Content` field is a pointer and may be nil. -/
structure Candidate where
  Content : Option Content
deriving Repr, DecidableEq

/-- genai.GenerateContentResponse: the list of candidates. -/
structure GenResponse where
  Candidates : List Candidate
deriving Repr, DecidableEq

/-- The `response` struct written to a request's `RespChan`; `Err` is the Go
error value (`none` is a nil error) and `Text` defaults to the zero value. -/
structure response where
  Text : String := ""
  Err : Option String := none
deriving Repr, DecidableEq

/-- The `request` struct: message body and metadata map (association list in
the map's iteration order); the reply channel is modelled by recording sends. -/
structure request where
  Msg : String
  Metadata : List (String × String)
deriving Repr, DecidableEq

/-- Go map indexing `md[k]` for a `map[string]string`: the zero value `""`
when the key is absent. -/
def lookupMeta (k : String) : List (String × String) → String
  | [] => ""
  | (k', v) :: rest => if k = k' then v else lookupMeta k rest

/-- The reply-extraction loop body of `messenger`: `for _, part := range parts`,
send the first part whose `Text` is non-empty and break.  `none` means the
loop finished without sending anything. -/
def firstNonEmptyText : List Part → Option String
  | [] => none
  | p :: rest => if p.Text ≠ "" then some p.Text else firstNonEmptyText rest

/-- The sequence of `response` values `messenger` writes to `msg.RespChan`
for a successful `SendMessage` result `resp`: the emptiness guard
(`len(resp.Candidates) == 0 || resp.Candidates[0].Content == nil ||
len(resp.Candidates[0].Content.Parts) == 0`) sends `response{Text: ""}`,
otherwise the scan loop sends the first non-empty text, if any. -/
def extractReplies (resp : GenResponse) : List response :=
  match resp.Candidates with
  | [] => [{ Text := "" }]
  | c0 :: _ =>
    match c0.Content with
    | none => [{ Text := "" }]
    | some content =>
      match content.Parts with
      | [] => [{ Text := "" }]
      | _ :: _ =>
        match firstNonEmptyText content.Parts with
        | some t => [{ Text := t }]
        | none => []

/-- The parts of the first candidate as the guard and loop address them:
`resp.Candidates[0].Content.Parts`, or `[]` where the guard would fire. -/
def cand0Parts (resp : GenResponse) : List Part :=
  match resp.Candidates with
  | [] => []
  | c0 :: _ =>
    match c0.Content with
    | none => []
    | some content => content.Parts

/-- strings.ToUpper modelled characterwise with ASCII `Char.toUpper` (Go's
version is Unicode-aware; every metadata key this program receives is ASCII,
where the two agree). -/
def toUpperAscii (s : String) : String := ⟨s.data.map Char.toUpper⟩

/-- One metadata line: `fmt.Sprintf("%s: %s\n", strings.ToUpper(k), v)`. -/
def metaLine (k v : String) : String := toUpperAscii k ++ ": " ++ v ++ "\n"

/-- The `meta` string accumulated by `for k, v := range msg.Metadata`,
appending one line per key in the map's iteration order. -/
def renderMeta (md : List (String × String)) : String :=
  md.foldl (fun acc kv => acc ++ metaLine kv.1 kv.2) ""

/-- The outbound parts built by `messenger`: start from the empty slice,
append one synthetic metadata part when `len(msg.Metadata) > 0`, then append
one part holding the body text. -/
def buildParts (msg : String) (md : List (String × String)) : List Part :=
  (if md.length > 0 then [{ Text := renderMeta md }] else []) ++ [{ Text := msg }]

/-- A backend chat session handle as the worker observes it at the start of a
message: `hist` is what `chat.History(true)` returns then. -/
structure Chat where
  hist : List Content
deriving Repr, DecidableEq

/-- The opaque backend collaborator for one worker iteration:
`create` is `client.Chats.Create` applied to the worker's fixed model and
config with the given seed history; `send` is `chat.SendMessage` on the
given ordered parts.  Either may fail with a Go error. -/
structure Backend where
  create : List Content → Except String Chat
  send : Chat → List Part → Except String GenResponse

/-- The worker's `chat` variable.  `none` is a nil `*genai.Chat`: the value
the variable takes when `chat, err = client.Chats.Create(...)` fails, since
`Create` returns a nil pointer alongside a non-nil error. -/
structure WorkerState where
  chat : Option Chat
deriving Repr, DecidableEq

/-- Outcome of one iteration of the messenger goroutine on one message:
either the loop continues with an updated `chat` variable, having written
`sent` to `msg.RespChan` (in order), or it dereferences a nil chat in
`chat.History(true)` and the goroutine crashes. -/
inductive StepResult where
  | ok (st : WorkerState) (sent : List response)
  | nilDeref
deriving Repr, DecidableEq

/-- The send phase of `messenger`: build the outbound parts, call
`chat.SendMessage`, deliver the error or the extracted reply.  The `chat`
variable keeps the handle used for the send. -/
def sendPhase (be : Backend) (chat : Chat) (msg : request) : StepResult :=
  match be.send chat (buildParts msg.Msg msg.Metadata) with
  | .error e => .ok { chat := some chat } [{ Err := some e }]
  | .ok resp => .ok { chat := some chat } (extractReplies resp)

/-- One iteration of the messenger goroutine's `for msg := range input` loop:
read `chat.History(true)` (a nil dereference when the `chat` variable is
nil), rebuild the session from `history[10:]` when `len(history) > 20`
(on failure deliver the error and leave `chat` holding the nil result of
the failed `Create`), then run the send phase. -/
def workerStep (be : Backend) (st : WorkerState) (msg : request) : StepResult :=
  match st.chat with
  | none => .nilDeref
  | some chat =>
    if chat.hist.length > 20 then
      match be.create (chat.hist.drop 10) with
      | .error e => .ok { chat := none } [{ Err := some e }]
      | .ok chat2 => sendPhase be chat2 msg
    else
      sendPhase be chat msg

/-- Conversation-key derivation inlined in `router`'s loop:
`name := msg.Metadata["channel"]`; if `name == "DM" || name == ""` then
`name = msg.Metadata["node_id"]`. -/
def deriveKey (md : List (String × String)) : String :=
  if lookupMeta "channel" md = "DM" ∨ lookupMeta "channel" md = "" then
    lookupMeta "node_id" md
  else
    lookupMeta "channel" md

/-- The dispatcher's state: the `chats` registry (conversation key to worker
handle, a worker being identified by its creation index) and the count of
workers created so far, which identifies the next fresh worker.  Insertion
happens only on a registry miss, so consing a new binding onto the
association list is the Go map insert. -/
structure RouterState where
  chats : List (String × Nat)
  nextId : Nat
deriving Repr, DecidableEq

/-- Go map lookup `chats[name]` on the registry. -/
def lookupChats (k : String) : List (String × Nat) → Option Nat
  | [] => none
  | (k', w) :: rest => if k = k' then some w else lookupChats k rest

/-- What `router` does with one message, as observed on channels: either a
`response{Err: ...}` is written directly to `msg.RespChan`, or the message is
forwarded into the inbox of the worker registered under `key`. -/
inductive RouteEvent where
  | errReply (e : String)
  | forwarded (key : String) (w : Nat)
deriving Repr, DecidableEq

/-- One iteration of the router goroutine on one message.  `factory` models
`messenger(...)` at the given creation index: `ok` means a worker goroutine
was started (identified by the creation index), `error` means construction
failed and nothing was registered. -/
def routerStep (factory : Nat → Except String Unit) (st : RouterState)
    (md : List (String × String)) : RouterState × RouteEvent :=
  if deriveKey md = "" then
    (st, .errReply "no channel or node_id found")
  else
    match lookupChats (deriveKey md) st.chats with
    | some w => (st, .forwarded (deriveKey md) w)
    | none =>
      match factory st.nextId with
      | .error e => (st, .errReply e)
      | .ok _ =>
        ({ chats := (deriveKey md, st.nextId) :: st.chats, nextId := st.nextId + 1 },
         .forwarded (deriveKey md) st.nextId)

/-- The router goroutine run over a finite inbound stream (the messages
received from `input` before it is closed), collecting the per-message
events in order. -/
def routerRun (factory : Nat → Except String Unit) :
    RouterState → List (List (String × String)) → RouterState × List RouteEvent
  | st, [] => (st, [])
  | st, md :: rest =>
    ((routerRun factory (routerStep factory st md).1 rest).1,
     (routerStep factory st md).2 :: (routerRun factory (routerStep factory st md).1 rest).2)

/-- The registry as `router` initializes it: `chats := make(map[string]chan<- request)`. -/
def routerInit : RouterState := { chats := [], nextId := 0 }

/-- The chat names whose inboxes `for name, ch := range chats { close(ch) }`
closes, as a function of the registry it ranges over. -/
def closeAllChats (chats : List (String × Nat)) : List String := chats.map Prod.fst

/-- The registry at the moment `router`'s deferred cleanup runs: the defer is
attached to `router` itself, so it fires when `router` returns — before the
caller even holds the `input` channel, hence before any message can have
been received and any worker registered. -/
def chatsAtRouterReturn : List (String × Nat) := []

/-- Every worker-inbox close the dispatcher ever performs: the deferred loop
(over the registry as of `router`'s return) is the only place a worker
channel is closed; the goroutine's `for msg := range input` loop simply ends
when `input` is closed, closing nothing. -/
def routerClosedChats : List String := closeAllChats chatsAtRouterReturn

/-- Concrete history of `n` turns, for instantiating the worker theorems. -/
def turns (n : Nat) : List Content := List.replicate n { Role := "user", Parts := [] }

/-- A concrete metadata-free message. -/
def reqHi : request := { Msg := "hi", Metadata := [] }

/-- A backend whose session creation always succeeds and whose sends return
a response with no candidates. -/
def beOk : Backend :=
  { create := fun h => .ok { hist := h }, send := fun _ _ => .ok { Candidates := [] } }

/-- A backend whose session creation always fails. -/
def beFail : Backend :=
  { create := fun _ => .error "boom", send := fun _ _ => .ok { Candidates := [] } }

/-- A session factory whose worker construction always succeeds. -/
def okFactory : Nat → Except String Unit := fun _ => .ok ()

/-- A session factory whose worker construction always fails. -/
def failFactory : Nat → Except String Unit := fun _ => .error "nope"

/-- The well-formedness invariant the dispatcher's registry maintains: every
registered worker was created by the run (its index is below the creation
counter), and no worker handle is registered under two keys. -/
def registryWF (st : RouterState) : Prop :=
  (∀ p ∈ st.chats, p.2 < st.nextId) ∧
  (∀ p ∈ st.chats, ∀ q ∈ st.chats, p.2 = q.2 → p.1 = q.1)

/-!  Helper lemmas. -/

theorem firstNonEmptyText_eq_some :
    ∀ {parts : List Part} {t : String}, firstNonEmptyText parts = some t →
      ∃ p ∈ parts, p.Text = t
  | [], _, h => by simp [firstNonEmptyText] at h
  | p :: rest, t, h => by
    by_cases hp : p.Text = ""
    · simp only [firstNonEmptyText, hp, ne_eq, not_true_eq_false, if_false] at h
      obtain ⟨q, hq, hqt⟩ := firstNonEmptyText_eq_some h
      exact ⟨q, List.mem_cons_of_mem _ hq, hqt⟩
    · simp only [firstNonEmptyText, hp, ne_eq, not_false_eq_true, if_true,
        Option.some.injEq] at h
      exact ⟨p, List.mem_cons_self _ _, h⟩

theorem foldl_append_acc (l : List String) (acc : String) :
    l.foldl (fun r s => r ++ s) acc = acc ++ l.foldl (fun r s => r ++ s) "" := by
  induction l generalizing acc with
  | nil => simp
  | cons x xs ih =>
    simp only [List.foldl_cons]
    rw [ih (acc ++ x), ih ("" ++ x), String.empty_append, String.append_assoc]

theorem join_split_of_mem {l : List String} {x : String} (h : x ∈ l) :
    ∃ pre post, String.join l = pre ++ (x ++ post) := by
  obtain ⟨s, t, rfl⟩ := List.append_of_mem h
  refine ⟨String.join s, String.join t, ?_⟩
  simp only [String.join, List.foldl_append, List.foldl_cons]
  rw [foldl_append_acc t, String.append_assoc]

theorem renderMeta_join (md : List (String × String)) :
    renderMeta md = String.join (md.map fun kv => metaLine kv.1 kv.2) := by
  simp only [renderMeta, String.join, List.foldl_map]

theorem lookupChats_mem {k : String} {w : Nat} :
    ∀ {l : List (String × Nat)}, lookupChats k l = some w → (k, w) ∈ l
  | [], h => by simp [lookupChats] at h
  | (k', w') :: rest, h => by
    by_cases hk : k = k'
    · subst hk
      simp [lookupChats] at h
      subst h
      exact List.mem_cons_self _ _
    · simp only [lookupChats, if_neg hk] at h
      exact List.mem_cons_of_mem _ (lookupChats_mem h)

theorem routerStep_eq_err (f : Nat → Except String Unit) (st : RouterState)
    (md : List (String × String)) (hd : deriveKey md = "") :
    routerStep f st md = (st, .errReply "no channel or node_id found") := by
  simp [routerStep, hd]

theorem routerStep_eq_hit (f : Nat → Except String Unit) (st : RouterState)
    (md : List (String × String)) (w : Nat) (hd : ¬ deriveKey md = "")
    (hl : lookupChats (deriveKey md) st.chats = some w) :
    routerStep f st md = (st, .forwarded (deriveKey md) w) := by
  simp [routerStep, hd, hl]

theorem routerStep_eq_fail (f : Nat → Except String Unit) (st : RouterState)
    (md : List (String × String)) (e : String) (hd : ¬ deriveKey md = "")
    (hl : lookupChats (deriveKey md) st.chats = none)
    (hf : f st.nextId = .error e) :
    routerStep f st md = (st, .errReply e) := by
  simp [routerStep, hd, hl, hf]

theorem routerStep_eq_miss (f : Nat → Except String Unit) (st : RouterState)
    (md : List (String × String)) (u : Unit) (hd : ¬ deriveKey md = "")
    (hl : lookupChats (deriveKey md) st.chats = none)
    (hf : f st.nextId = .ok u) :
    routerStep f st md =
      ({ chats := (deriveKey md, st.nextId) :: st.chats, nextId := st.nextId + 1 },
       .forwarded (deriveKey md) st.nextId) := by
  simp [routerStep, hd, hl, hf]

theorem routerStep_lookup_mono (f : Nat → Except String Unit) (st : RouterState)
    (md : List (String × String)) {k : String} {w : Nat}
    (h : lookupChats k st.chats = some w) :
    lookupChats k ((routerStep f st md).1).chats = some w := by
  by_cases hd : deriveKey md = ""
  · simpa only [routerStep_eq_err f st md hd] using h
  · cases hl : lookupChats (deriveKey md) st.chats with
    | some w' => simpa only [routerStep_eq_hit f st md w' hd hl] using h
    | none =>
      cases hf : f st.nextId with
      | error e => simpa only [routerStep_eq_fail f st md e hd hl hf] using h
      | ok u =>
        have hk : ¬ k = deriveKey md := by
          intro he
          rw [he, hl] at h
          cases h
        simp only [routerStep_eq_miss f st md u hd hl hf, lookupChats, if_neg hk]
        exact h

theorem routerStep_forwarded_sound (f : Nat → Except String Unit) (st : RouterState)
    (md : List (String × String)) {k : String} {w : Nat}
    (h : (routerStep f st md).2 = .forwarded k w) :
    lookupChats k ((routerStep f st md).1).chats = some w := by
  by_cases hd : deriveKey md = ""
  · simp [routerStep_eq_err f st md hd] at h
  · cases hl : lookupChats (deriveKey md) st.chats with
    | some w' =>
      have heq := routerStep_eq_hit f st md w' hd hl
      simp only [heq, RouteEvent.forwarded.injEq] at h
      obtain ⟨hk, rfl⟩ := h
      simp only [heq]
      rw [← hk]
      exact hl
    | none =>
      cases hf : f st.nextId with
      | error e => simp [routerStep_eq_fail f st md e hd hl hf] at h
      | ok u =>
        have heq := routerStep_eq_miss f st md u hd hl hf
        simp only [heq, RouteEvent.forwarded.injEq] at h
        obtain ⟨hk, rfl⟩ := h
        simp only [heq, lookupChats]
        rw [if_pos hk.symm]

theorem routerStep_lookup_new (f : Nat → Except String Unit) (st : RouterState)
    (md : List (String × String)) {k : String} {w : Nat}
    (h : lookupChats k ((routerStep f st md).1).chats = some w)
    (h0 : lookupChats k st.chats = none) :
    deriveKey md = k ∧ (routerStep f st md).2 = .forwarded k w := by
  by_cases hd : deriveKey md = ""
  · simp only [routerStep_eq_err f st md hd] at h
    rw [h0] at h
    cases h
  · cases hl : lookupChats (deriveKey md) st.chats with
    | some w' =>
      simp only [routerStep_eq_hit f st md w' hd hl] at h
      rw [h0] at h
      cases h
    | none =>
      cases hf : f st.nextId with
      | error e =>
        simp only [routerStep_eq_fail f st md e hd hl hf] at h
        rw [h0] at h
        cases h
      | ok u =>
        have heq := routerStep_eq_miss f st md u hd hl hf
        simp only [heq, lookupChats] at h
        by_cases hk : k = deriveKey md
        · rw [if_pos hk] at h
          obtain rfl := Option.some.inj h
          refine ⟨hk.symm, ?_⟩
          simp only [heq]
          rw [hk]
        · rw [if_neg hk] at h
          rw [h0] at h
          cases h

theorem routerStep_WF (f : Nat → Except String Unit) (st : RouterState)
    (md : List (String × String)) (h : registryWF st) :
    registryWF (routerStep f st md).1 := by
  by_cases hd : deriveKey md = ""
  · simpa only [routerStep_eq_err f st md hd] using h
  · cases hl : lookupChats (deriveKey md) st.chats with
    | some w' => simpa only [routerStep_eq_hit f st md w' hd hl] using h
    | none =>
      cases hf : f st.nextId with
      | error e => simpa only [routerStep_eq_fail f st md e hd hl hf] using h
      | ok u =>
        simp only [routerStep_eq_miss f st md u hd hl hf, registryWF]
        obtain ⟨hbound, huniq⟩ := h
        constructor
        · intro p hp
          rcases List.mem_cons.mp hp with rfl | hp
          · exact Nat.lt_succ_self _
          · exact Nat.lt_succ_of_lt (hbound p hp)
        · intro p hp q hq hpq
          rcases List.mem_cons.mp hp with rfl | hp <;>
            rcases List.mem_cons.mp hq with rfl | hq
          · rfl
          · exact absurd (hpq ▸ hbound q hq) (Nat.lt_irrefl _)
          · exact absurd (hpq ▸ hbound p hp) (Nat.lt_irrefl _)
          · exact huniq p hp q hq hpq

theorem routerRun_lookup_mono (f : Nat → Except String Unit)
    (msgs : List (List (String × String))) :
    ∀ (st : RouterState) {k : String} {w : Nat},
      lookupChats k st.chats = some w →
      lookupChats k ((routerRun f st msgs).1).chats = some w := by
  induction msgs with
  | nil => intro st k w h; exact h
  | cons md rest ih =>
    intro st k w h
    exact ih _ (routerStep_lookup_mono f st md h)

theorem routerRun_WF (f : Nat → Except String Unit)
    (msgs : List (List (String × String))) :
    ∀ st : RouterState, registryWF st → registryWF (routerRun f st msgs).1 := by
  induction msgs with
  | nil => intro st h; exact h
  | cons md rest ih =>
    intro st h
    exact ih _ (routerStep_WF f st md h)

theorem routerRun_forwarded_sound (f : Nat → Except String Unit)
    (msgs : List (List (String × String))) :
    ∀ (st : RouterState) {k : String} {w : Nat},
      RouteEvent.forwarded k w ∈ (routerRun f st msgs).2 →
      lookupChats k ((routerRun f st msgs).1).chats = some w := by
  induction msgs with
  | nil => intro st k w h; simp [routerRun] at h
  | cons md rest ih =>
    intro st k w h
    simp only [routerRun, List.mem_cons] at h
    rcases h with h | h
    · exact routerRun_lookup_mono f rest _ (routerStep_forwarded_sound f st md h.symm)
    · exact ih _ h

theorem routerRun_lookup_source (f : Nat → Except String Unit)
    (msgs : List (List (String × String))) :
    ∀ (st : RouterState) {k : String} {w : Nat},
      lookupChats k ((routerRun f st msgs).1).chats = some w →
      lookupChats k st.chats = some w ∨
        ((∃ md ∈ msgs, deriveKey md = k) ∧
          RouteEvent.forwarded k w ∈ (routerRun f st msgs).2) := by
  induction msgs with
  | nil => intro st k w h; exact Or.inl h
  | cons md rest ih =>
    intro st k w h
    rcases ih (routerStep f st md).1 h with h' | ⟨⟨md', hmd', hk⟩, hev⟩
    · cases hc : lookupChats k st.chats with
      | some w'' =>
        have hm' := routerStep_lookup_mono f st md hc
        obtain rfl := Option.some.inj (hm'.symm.trans h')
        exact Or.inl rfl
      | none =>
        obtain ⟨hk, hev⟩ := routerStep_lookup_new f st md h' hc
        exact Or.inr ⟨⟨md, List.mem_cons_self _ _, hk⟩,
          List.mem_cons.mpr (Or.inl hev.symm)⟩
    · exact Or.inr ⟨⟨md', List.mem_cons_of_mem _ hmd', hk⟩,
        List.mem_cons.mpr (Or.inr hev)⟩

/-!  Claim theorems. -/

/-- C1: reply extraction returns the first part with non-empty text, scanning
in order, and the structurally empty responses (zero candidates, nil content,
zero parts) yield the empty-text, nil-error reply — but on a response whose
parts all carry empty text the worker writes no reply at all to the message's
reply channel, instead of the empty-text reply the claim requires. -/
theorem C1_reply_extraction_drops_all_empty_parts :
    extractReplies { Candidates :=
        [{ Content := some { Parts := [{ Text := "" }, { Text := "b" }] } }] }
      = [{ Text := "b", Err := none }] ∧
    extractReplies { Candidates := [] } = [{ Text := "", Err := none }] ∧
    extractReplies { Candidates := [{ Content := none }] }
      = [{ Text := "", Err := none }] ∧
    extractReplies { Candidates := [{ Content := some { Parts := [] } }] }
      = [{ Text := "", Err := none }] ∧
    extractReplies { Candidates :=
        [{ Content := some { Parts := [{ Text := "" }, { Text := "" }] } }] }
      = [] := by
  decide

/-- C2: the worker never writes two replies for one successful backend
response (the scan loop breaks after its first send), but on a response whose
only part has empty text it writes zero, so exactly-once reply delivery fails
on that path. -/
theorem C2_reply_delivery_count :
    (∀ resp : GenResponse, (extractReplies resp).length ≤ 1) ∧
    (extractReplies { Candidates :=
        [{ Content := some { Parts := [{ Text := "" }] } }] }).length = 0 := by
  constructor
  · intro resp
    unfold extractReplies
    split
    · simp
    · split
      · simp
      · split
        · simp
        · split
          · simp
          · simp
  · decide

/-- C3: before a send the worker rebuilds the backend session, seeded with
the history suffix starting at index 10, exactly when the history it read
has strictly more than 20 turns; at 20 or fewer it sends on the existing
session, and a 21-turn history yields an 11-turn seed. -/
theorem C3_compaction_trigger :
    (∀ (be : Backend) (st : WorkerState) (msg : request) (chat : Chat),
        st.chat = some chat → chat.hist.length ≤ 20 →
        workerStep be st msg = sendPhase be chat msg) ∧
    (∀ (be : Backend) (st : WorkerState) (msg : request) (chat chat2 : Chat),
        st.chat = some chat → chat.hist.length > 20 →
        be.create (chat.hist.drop 10) = .ok chat2 →
        workerStep be st msg = sendPhase be chat2 msg) ∧
    (∀ (be : Backend) (st : WorkerState) (msg : request) (chat : Chat) (e : String),
        st.chat = some chat → chat.hist.length > 20 →
        be.create (chat.hist.drop 10) = .error e →
        workerStep be st msg = .ok { chat := none } [{ Text := "", Err := some e }]) ∧
    (∀ l : List Content, l.length = 21 → (l.drop 10).length = 11) := by
  refine ⟨?_, ?_, ?_, ?_⟩
  · intro be st msg chat h hle
    simp [workerStep, h, Nat.not_lt.mpr hle]
  · intro be st msg chat chat2 h hgt hcr
    simp [workerStep, h, hgt, hcr]
  · intro be st msg chat e h hgt hcr
    simp [workerStep, h, hgt, hcr]
  · intro l hl
    simp [List.length_drop, hl]

/-- C3 witness: with exactly 20 turns the next message is sent on the
existing session; with exactly 21 turns the session is rebuilt from the
suffix at index 10, which retains 11 turns. -/
theorem C3_compaction_trigger_witness :
    workerStep beOk { chat := some { hist := turns 20 } } reqHi
      = sendPhase beOk { hist := turns 20 } reqHi ∧
    workerStep beOk { chat := some { hist := turns 21 } } reqHi
      = sendPhase beOk { hist := (turns 21).drop 10 } reqHi ∧
    ((turns 21).drop 10).length = 11 := by
  refine ⟨?_, ?_, ?_⟩
  · exact C3_compaction_trigger.1 beOk _ reqHi { hist := turns 20 } rfl (by decide)
  · exact C3_compaction_trigger.2.1 beOk _ reqHi { hist := turns 21 } _ rfl (by decide) rfl
  · exact C3_compaction_trigger.2.2.2 (turns 21) (by decide)

/-- C4: the conversation key is the `channel` metadata value when that value
is non-empty and not `DM`, otherwise the `node_id` value; the listed examples
hold, and a message with no derivable key is answered immediately with the
`no channel or node_id found` error Reply, the dispatcher state unchanged,
so no worker is created. -/
theorem C4_key_derivation (factory : Nat → Except String Unit) (st : RouterState) :
    (∀ md, lookupMeta "channel" md ≠ "" → lookupMeta "channel" md ≠ "DM" →
        deriveKey md = lookupMeta "channel" md) ∧
    (∀ md, lookupMeta "channel" md = "" ∨ lookupMeta "channel" md = "DM" →
        deriveKey md = lookupMeta "node_id" md) ∧
    deriveKey [("channel", "general")] = "general" ∧
    deriveKey [("channel", "DM"), ("node_id", "abc")] = "abc" ∧
    deriveKey [("node_id", "abc")] = "abc" ∧
    (∀ md, deriveKey md = "" →
        routerStep factory st md = (st, .errReply "no channel or node_id found")) ∧
    routerStep factory st [] = (st, .errReply "no channel or node_id found") := by
  have herr : ∀ md, deriveKey md = "" →
      routerStep factory st md = (st, .errReply "no channel or node_id found") :=
    fun md h => routerStep_eq_err factory st md h
  refine ⟨?_, ?_, by decide, by decide, by decide, herr, herr [] (by decide)⟩
  · intro md h1 h2
    unfold deriveKey
    rw [if_neg]
    rintro (h | h) <;> contradiction
  · intro md h
    unfold deriveKey
    rw [if_pos (Or.symm h)]

/-- C4 witness: key derivation at the claim's concrete metadata, and the
immediate routing-error Reply with unchanged state on empty metadata. -/
theorem C4_key_derivation_witness :
    deriveKey [("channel", "general")] = "general" ∧
    routerStep okFactory routerInit [("channel", "DM")]
      = (routerInit, .errReply "no channel or node_id found") ∧
    routerStep okFactory routerInit [] = (routerInit, .errReply "no channel or node_id found") :=
  ⟨(C4_key_derivation okFactory routerInit).2.2.1,
   (C4_key_derivation okFactory routerInit).2.2.2.2.2.1 [("channel", "DM")] (by decide),
   (C4_key_derivation okFactory routerInit).2.2.2.2.2.2⟩

/-- C5: when the compaction rebuild fails, the error is delivered as the
message's Reply and the send is not attempted — but the worker's `chat`
variable is overwritten with the failed `Create` call's nil result instead of
keeping the pre-compaction session, and the next message then dereferences a
nil chat in `chat.History(true)`, so the worker does not stay usable. -/
theorem C5_rebuild_failure_clobbers_session (be : Backend) (st : WorkerState)
    (msg msg' : request) (chat : Chat) (e : String)
    (h : st.chat = some chat) (hgt : chat.hist.length > 20)
    (hcr : be.create (chat.hist.drop 10) = .error e) :
    workerStep be st msg = .ok { chat := none } [{ Text := "", Err := some e }] ∧
    workerStep be { chat := none } msg' = .nilDeref := by
  constructor
  · simp [workerStep, h, hgt, hcr]
  · rfl

/-- C5 witness: a worker at 21 turns whose rebuild fails delivers the error,
ends the step with a nil chat, and crashes on the next message. -/
theorem C5_rebuild_failure_clobbers_session_witness :
    workerStep beFail { chat := some { hist := turns 21 } } reqHi
      = .ok { chat := none } [{ Text := "", Err := some "boom" }] ∧
    workerStep beFail { chat := none } reqHi = .nilDeref :=
  C5_rebuild_failure_clobbers_session beFail _ reqHi reqHi { hist := turns 21 } "boom"
    rfl (by decide) rfl

/-- C6: the dispatcher's registry: a failed worker construction answers the
error Reply with the registry unchanged; a registered entry is never removed
or replaced by a later message; an entry exists only for the derived key of
some arrived message and only together with a forward to that worker; any
two messages forwarded under the same key reach the same worker, and
messages with different keys never share a worker. -/
theorem C6_registry_affinity (factory : Nat → Except String Unit)
    (msgs : List (List (String × String))) :
    (∀ (st : RouterState) (md : List (String × String)) (e : String),
        deriveKey md ≠ "" → lookupChats (deriveKey md) st.chats = none →
        factory st.nextId = .error e →
        routerStep factory st md = (st, .errReply e)) ∧
    (∀ (st : RouterState) (md : List (String × String)) (k : String) (w : Nat),
        lookupChats k st.chats = some w →
        lookupChats k ((routerStep factory st md).1).chats = some w) ∧
    (∀ (k : String) (w : Nat),
        lookupChats k ((routerRun factory routerInit msgs).1).chats = some w →
        (∃ md ∈ msgs, deriveKey md = k) ∧
          RouteEvent.forwarded k w ∈ (routerRun factory routerInit msgs).2) ∧
    (∀ (k : String) (w w' : Nat),
        RouteEvent.forwarded k w ∈ (routerRun factory routerInit msgs).2 →
        RouteEvent.forwarded k w' ∈ (routerRun factory routerInit msgs).2 → w = w') ∧
    (∀ (k k' : String) (w : Nat),
        RouteEvent.forwarded k w ∈ (routerRun factory routerInit msgs).2 →
        RouteEvent.forwarded k' w ∈ (routerRun factory routerInit msgs).2 → k = k') := by
  refine ⟨?_, ?_, ?_, ?_, ?_⟩
  · intro st md e hd hl hf
    exact routerStep_eq_fail factory st md e hd hl hf
  · intro st md k w h
    exact routerStep_lookup_mono factory st md h
  · intro k w h
    rcases routerRun_lookup_source factory msgs routerInit h with h' | h'
    · cases h'
    · exact h'
  · intro k w w' h h'
    have s1 := routerRun_forwarded_sound factory msgs routerInit h
    have s2 := routerRun_forwarded_sound factory msgs routerInit h'
    exact Option.some.inj (s1.symm.trans s2)
  · intro k k' w h h'
    have s1 := routerRun_forwarded_sound factory msgs routerInit h
    have s2 := routerRun_forwarded_sound factory msgs routerInit h'
    have hwf : registryWF (routerRun factory routerInit msgs).1 := by
      refine routerRun_WF factory msgs routerInit ⟨?_, ?_⟩ <;>
        simp [routerInit]
    exact hwf.2 _ (lookupChats_mem s1) _ (lookupChats_mem s2) rfl

/-- C6 witness: a failed construction leaves the initial state unchanged
with the error Reply, and a registered entry survives a later message with a
different key. -/
theorem C6_registry_affinity_witness :
    routerStep failFactory routerInit [("channel", "g")] = (routerInit, .errReply "nope") ∧
    lookupChats "g" ((routerStep okFactory { chats := [("g", 0)], nextId := 1 }
      [("node_id", "x")]).1).chats = some 0 :=
  ⟨(C6_registry_affinity failFactory []).1 routerInit [("channel", "g")] "nope"
      (by decide) rfl rfl,
   (C6_registry_affinity okFactory []).2.1 { chats := [("g", 0)], nextId := 1 }
      [("node_id", "x")] "g" 0 (by decide)⟩

/-- C7: the outbound content parts are the synthetic metadata part followed
by the body part when the metadata map is non-empty, and exactly the body
part when it is empty; the metadata part concatenates one
`UPPERCASED_KEY: value` line per key in iteration order, and the claim's
example evaluates as stated. -/
theorem C7_outbound_parts :
    (∀ (msg : String) (md : List (String × String)), md ≠ [] →
        buildParts msg md = [{ Text := renderMeta md }, { Text := msg }]) ∧
    (∀ msg : String, buildParts msg [] = [{ Text := msg }]) ∧
    (∀ md : List (String × String),
        renderMeta md = String.join (md.map fun kv => metaLine kv.1 kv.2)) ∧
    buildParts "hello" [("snr", "7.5")] = [{ Text := "SNR: 7.5\n" }, { Text := "hello" }] := by
  refine ⟨?_, ?_, renderMeta_join, by decide⟩
  · intro msg md hmd
    have hpos : md.length > 0 := List.length_pos.mpr hmd
    simp [buildParts, hpos]
  · intro msg
    simp [buildParts]

/-- C7 witness: the two-part and one-part shapes at concrete inputs. -/
theorem C7_outbound_parts_witness :
    buildParts "x" [("a", "b")] = [{ Text := renderMeta [("a", "b")] }, { Text := "x" }] ∧
    buildParts "x" [] = [{ Text := "x" }] ∧
    buildParts "hello" [("snr", "7.5")] = [{ Text := "SNR: 7.5\n" }, { Text := "hello" }] :=
  ⟨C7_outbound_parts.1 "x" [("a", "b")] (by decide),
   C7_outbound_parts.2.1 "x",
   C7_outbound_parts.2.2.2⟩

/-- C8: the dispatcher closes no worker inbox at shutdown: the deferred close
loop runs over the registry as of `router`'s return, which is empty, and the
goroutine closes nothing when the inbound queue is closed — here a worker is
registered under `general`, yet the set of closed inboxes is empty. -/
theorem C8_shutdown_closes_no_worker_inbox :
    routerClosedChats = [] ∧
    lookupChats "general"
      ((routerRun okFactory routerInit [[("channel", "general")]]).1).chats = some 0 := by
  exact ⟨rfl, by decide⟩

/-- C9: extraction inspects only the first candidate: a first candidate with
nil content or zero parts yields the empty-text reply even when a later
candidate carries text, and any reply ever delivered has a nil error and a
text that is empty or the text of one of the first candidate's parts. -/
theorem C9_first_candidate_only :
    (∀ (c0 : Candidate) (rest : List Candidate), c0.Content = none →
        extractReplies { Candidates := c0 :: rest } = [{ Text := "", Err := none }]) ∧
    (∀ (c0 : Candidate) (rest : List Candidate) (content : Content),
        c0.Content = some content → content.Parts = [] →
        extractReplies { Candidates := c0 :: rest } = [{ Text := "", Err := none }]) ∧
    (∀ (resp : GenResponse) (r : response), r ∈ extractReplies resp →
        r.Err = none ∧ (r.Text = "" ∨ ∃ p ∈ cand0Parts resp, p.Text = r.Text)) ∧
    extractReplies { Candidates := [{ Content := none },
        { Content := some { Parts := [{ Text := "later" }] } }] }
      = [{ Text := "", Err := none }] := by
  refine ⟨?_, ?_, ?_, by decide⟩
  · intro c0 rest h
    simp [extractReplies, h]
  · intro c0 rest content h hp
    simp [extractReplies, h, hp]
  · intro resp r hr
    obtain ⟨cands⟩ := resp
    rcases cands with _ | ⟨⟨oc⟩, rest⟩
    · simp [extractReplies] at hr
      simp [hr]
    · rcases oc with _ | ct
      · simp [extractReplies] at hr
        simp [hr]
      · obtain ⟨role, ps⟩ := ct
        rcases ps with _ | ⟨p0, prest⟩
        · simp [extractReplies] at hr
          simp [hr]
        · cases hft : firstNonEmptyText (p0 :: prest) with
          | none => simp [extractReplies, hft] at hr
          | some t =>
            simp [extractReplies, hft] at hr
            obtain ⟨q, hq, hqt⟩ := firstNonEmptyText_eq_some hft
            subst hr
            exact ⟨rfl, Or.inr ⟨q, by simpa [cand0Parts] using hq, hqt⟩⟩

/-- C9 witness: the nil-content first candidate masks a later candidate's
text. -/
theorem C9_first_candidate_only_witness :
    extractReplies { Candidates := [{ Content := none },
        { Content := some { Parts := [{ Text := "later" }] } }] }
      = [{ Text := "", Err := none }] ∧
    extractReplies { Candidates := [{ Content := none }] } = [{ Text := "", Err := none }] :=
  ⟨C9_first_candidate_only.2.2.2,
   C9_first_candidate_only.1 { Content := none } [] rfl⟩

/-- C10: every key-value pair of the metadata map is rendered into the
synthetic leading part as an `UPPERCASED_KEY: value` line, with no filtering
to a recognized key set — the unrecognized key `foo` is rendered as
`FOO: value` like any other. -/
theorem C10_metadata_rendered_unfiltered :
    (∀ (md : List (String × String)) (k v : String), (k, v) ∈ md →
        ∃ pre post, renderMeta md = pre ++ (metaLine k v ++ post)) ∧
    buildParts "body" [("foo", "value")] = [{ Text := "FOO: value\n" }, { Text := "body" }] ∧
    renderMeta [("hops", "3"), ("foo", "value")] = "HOPS: 3\nFOO: value\n" := by
  refine ⟨?_, by decide, by decide⟩
  intro md k v hmem
  rw [renderMeta_join md]
  exact join_split_of_mem (List.mem_map_of_mem _ hmem)

/-- C10 witness: the unrecognized key `foo` appears in the rendered metadata. -/
theorem C10_metadata_rendered_unfiltered_witness :
    (∃ pre post, renderMeta [("foo", "value")] = pre ++ (metaLine "foo" "value" ++ post)) ∧
    buildParts "body" [("foo", "value")] = [{ Text := "FOO: value\n" }, { Text := "body" }] :=
  ⟨C10_metadata_rendered_unfiltered.1 [("foo", "value")] "foo" "value" (by decide),
   C10_metadata_rendered_unfiltered.2.1⟩

end Chatty
